import Mathlib

/-!
Verification of the 2D-GO arcade shooter (src/main.go) against its
natural-language specification.

The per-tick simulation of Game.Update is embedded shallowly: positions and
sizes are rationals (Go float64 arithmetic here is exact on the values the
game produces), the score and counters are integers, and each phase of the
update loop becomes a pure Lean function named after the corresponding
block of main.go.  Input events (held keys, fresh mouse press, random draws,
file contents) are passed as explicit arguments.
-/

namespace TwoDGo

/-- Player record, mirroring struct Player of main.go (lines 66-69):
position X, Y and square hitbox edge Size. -/
structure Player where
  x : ℚ
  y : ℚ
  size : ℚ
deriving DecidableEq

/-- Constructor NewPlayer of main.go (lines 71-73): fixed size 32. -/
def NewPlayer (x y : ℚ) : Player :=
  { x := x, y := y, size := 32 }

/-- Player bullet record, mirroring struct Bullet of main.go (lines 75-79). -/
structure Bullet where
  x : ℚ
  y : ℚ
  speedY : ℚ
  size : ℚ
deriving DecidableEq

/-- Enemy record, mirroring struct Enemy of main.go (lines 81-87),
including the deferred-removal flag Dead. -/
structure Enemy where
  x : ℚ
  y : ℚ
  size : ℚ
  speedY : ℚ
  cooldown : ℤ
  dead : Bool
deriving DecidableEq

/-- Enemy bullet record, mirroring struct EnemyBullet of main.go
(lines 89-94). -/
structure EnemyBullet where
  x : ℚ
  y : ℚ
  speedX : ℚ
  speedY : ℚ
  size : ℚ
deriving DecidableEq

/-- Function rectsOverlap of main.go (lines 156-158): axis-aligned box
overlap with strict inequalities. -/
def rectsOverlap (x1 y1 s1 x2 y2 s2 : ℚ) : Bool :=
  decide (x1 < x2 + s2) && decide (x2 < x1 + s1) &&
  decide (y1 < y2 + s2) && decide (y2 < y1 + s1)

/-- Score table abstraction of the Go map scores.HighScores.  Reading a
missing key from a Go map yields 0, so the table is a total function with
default 0, mirroring struct ScoreData of main.go (lines 124-126). -/
structure ScoreData where
  highScores : String → ℤ

/-- Function loadScores of main.go (lines 160-168), with the file system
abstracted as an argument: none models a failed os.Open (no file),
some none models a present but malformed file (the json Decode error is
ignored and the table stays as initialized), and some (some d) models a
present well-formed file decoding to d.  The function is total: no failure
mode is fatal. -/
def loadScores (file : Option (Option ScoreData)) : ScoreData :=
  match file with
  | none => { highScores := fun _ => 0 }
  | some none => { highScores := fun _ => 0 }
  | some (some d) => d

/-- Death-time high-score bookkeeping of Game.Update (main.go lines
534-538 and 549-553): if the username is non-empty and the session score
strictly exceeds the stored value, overwrite the entry and invoke
saveScores (the returned Bool records whether saveScores was called). -/
def saveHighScoreOnDeath (username : String) (score : ℤ) (hs : String → ℤ) :
    (String → ℤ) × Bool :=
  if username ≠ "" ∧ score > hs username then
    (Function.update hs username score, true)
  else
    (hs, false)

/-- Fold of the death-time bookkeeping over a whole sequence of death
events, each event being a username together with the session score at
that death. -/
def applyDeaths (hs : String → ℤ) (events : List (String × ℤ)) : String → ℤ :=
  events.foldl (fun t ev => (saveHighScoreOnDeath ev.1 ev.2 t).1) hs

/-- Bullet spawned by the shooting branch of Game.Update (main.go lines
406-413): x at the player horizontal center minus half the bullet size,
y at player.Y + player.Size, SpeedY 8, Size 6. -/
def spawnBullet (p : Player) : Bullet :=
  { x := p.x + p.size / 2 - 3, y := p.y + p.size, speedY := 8, size := 6 }

/-- Shooting phase of Game.Update (main.go lines 405-414): on a fresh
left-mouse press with a live player, append exactly one bullet. -/
def shoot (justPressed : Bool) (player : Option Player) (bs : List Bullet) :
    List Bullet :=
  match justPressed, player with
  | true, some p => bs ++ [spawnBullet p]
  | _, _ => bs

/-- Player-bullet movement phase of Game.Update (main.go lines 484-492):
each bullet advances by its SpeedY and is kept exactly when its box still
satisfies b.Y + b.Size > 0. -/
def moveBullets (bs : List Bullet) : List Bullet :=
  bs.filterMap (fun b =>
    let b1 : Bullet := { b with y := b.y + b.speedY }
    if 0 < b1.y + b1.size then some b1 else none)

/-- Difficulty-ramp phase of Game.Update (main.go lines 373 and 416-422)
acting on the pair (elapsedFrames, spawnInterval): elapsedFrames is
incremented, then every 120 frames the interval drops by 5 while above 10,
clamped below at 10. -/
def rampStep : ℕ × ℤ → ℕ × ℤ :=
  fun s =>
    let e := s.1 + 1
    if e % 120 = 0 ∧ s.2 > 10 then
      let i := s.2 - 5
      (e, if i < 10 then 10 else i)
    else
      (e, s.2)

/-- State of (elapsedFrames, spawnInterval) after n playing ticks starting
from the Game.Reset values (main.go lines 947-949): counter 0, interval 90. -/
def rampState (n : ℕ) : ℕ × ℤ :=
  rampStep^[n] (0, 90)

/-- Condition of the inner collision loop of Game.Update (main.go line
499): the enemy is not yet marked dead and its box overlaps the bullet. -/
def liveHit (b : Bullet) (e : Enemy) : Bool :=
  !e.dead && rectsOverlap b.x b.y b.size e.x e.y e.size

/-- Inner loop of the bullet-vs-enemy collision pass (main.go lines
497-504): scan the enemies in order, mark the first not-yet-dead
overlapping enemy as dead and stop; the Bool reports whether a hit
occurred. -/
def markFirstHit (b : Bullet) : List Enemy → List Enemy × Bool
  | [] => ([], false)
  | e :: es =>
    if liveHit b e then
      ({ e with dead := true } :: es, true)
    else
      (e :: (markFirstHit b es).1, (markFirstHit b es).2)

/-- Outer loop of the bullet-vs-enemy collision pass (main.go lines
494-509): each bullet in order tries to hit; a hitting bullet is consumed
and the score is incremented, a missing bullet is kept.  Returns the
remaining bullets, the enemies with their dead marks, and the new score. -/
def bulletEnemyPass : List Bullet → List Enemy → ℤ → List Bullet × List Enemy × ℤ
  | [], es, sc => ([], es, sc)
  | b :: bs, es, sc =>
    if (markFirstHit b es).2 then
      bulletEnemyPass bs (markFirstHit b es).1 (sc + 1)
    else
      (b :: (bulletEnemyPass bs (markFirstHit b es).1 sc).1,
       (bulletEnemyPass bs (markFirstHit b es).1 sc).2)

/-- Dead-enemy cleanup after the collision pass (main.go lines 510-517). -/
def removeDead (es : List Enemy) : List Enemy :=
  es.filter (fun e => !e.dead)

/-- Number of enemies currently marked dead in a list. -/
def countDead (es : List Enemy) : ℕ :=
  (es.filter (fun e => e.dead)).length

/-- Horizontal aiming delta dx of the enemy fire block (main.go line
451): player center x minus enemy center x. -/
def aimDX (p : Player) (e : Enemy) : ℚ :=
  (p.x + p.size / 2) - (e.x + e.size / 2)

/-- Vertical aiming delta dy of the enemy fire block (main.go line 452):
player center y minus enemy center y. -/
def aimDY (p : Player) (e : Enemy) : ℚ :=
  (p.y + p.size / 2) - (e.y + e.size / 2)

/-- Squared distance dist = dx*dx + dy*dy of the enemy fire block
(main.go line 453). -/
def aimDist (p : Player) (e : Enemy) : ℚ :=
  aimDX p e * aimDX p e + aimDY p e * aimDY p e

/-- Enemy after its per-tick movement e.Y += e.SpeedY (main.go line 444). -/
def enemyMoved (e : Enemy) : Enemy :=
  { e with y := e.y + e.speedY }

/-- Enemy after movement and the cooldown decrement e.Cooldown--
(main.go lines 444 and 449). -/
def enemyTicked (e : Enemy) : Enemy :=
  { enemyMoved e with cooldown := e.cooldown - 1 }

/-- Per-enemy body of the enemy movement-and-shooting loop of Game.Update
(main.go lines 441-470).  The call math.Sqrt is abstracted as the
function argument sq, and the random draw rand.Intn(60) of the cooldown
reset as the argument r.  Returns none when the enemy has scrolled fully
above the top edge (despawned without firing), otherwise the updated
enemy together with the bullet it fired, if any: with a player present,
once the decremented cooldown is at or below zero the enemy fires one
bullet aimed at the player center and resets its cooldown to 60 + r,
except that when the squared distance is not positive the division is
skipped and nothing is fired. -/
def updateEnemy (sq : ℚ → ℚ) (p? : Option Player) (r : ℕ) (e : Enemy) :
    Option (Enemy × Option EnemyBullet) :=
  if (enemyMoved e).y + (enemyMoved e).size < 0 then
    none
  else
    match p? with
    | none => some (enemyMoved e, none)
    | some p =>
      if (enemyTicked e).cooldown ≤ 0 then
        if 0 < aimDist p (enemyTicked e) then
          some ({ enemyTicked e with cooldown := 60 + (r : ℤ) },
            some { x := (enemyTicked e).x + (enemyTicked e).size / 2 - 3,
                   y := (enemyTicked e).y + (enemyTicked e).size / 2 - 3,
                   speedX := aimDX p (enemyTicked e) / sq (aimDist p (enemyTicked e)) * 5,
                   speedY := aimDY p (enemyTicked e) / sq (aimDist p (enemyTicked e)) * 5,
                   size := 6 })
        else
          some (enemyTicked e, none)
      else
        some (enemyTicked e, none)

/-- Held movement keys consumed by the player-movement block of
Game.Update (main.go lines 378-389): W/S/A/D and the four arrow keys. -/
structure HeldKeys where
  w : Bool
  s : Bool
  a : Bool
  d : Bool
  up : Bool
  down : Bool
  left : Bool
  right : Bool
deriving DecidableEq

/-- Player movement and clamping block of Game.Update (main.go lines
375-403): move 4 units per held direction, then clamp each coordinate into
the arena (640 by 480) adjusted for the player size. -/
def movePlayerClamp (k : HeldKeys) (p : Player) : Player :=
  let y1 := if k.w || k.up then p.y - 4 else p.y
  let y2 := if k.s || k.down then y1 + 4 else y1
  let x1 := if k.a || k.left then p.x - 4 else p.x
  let x2 := if k.d || k.right then x1 + 4 else x1
  let x3 := if x2 < 0 then 0 else x2
  let y3 := if y2 < 0 then 0 else y2
  let x4 := if x3 > 640 - p.size then 640 - p.size else x3
  let y4 := if y3 > 480 - p.size then 480 - p.size else y3
  { p with x := x4, y := y4 }

/-- Arena bound satisfied after clamping: the full hitbox stays inside
the 640 by 480 arena. -/
def inArena (p : Player) : Prop :=
  0 ≤ p.x ∧ p.x ≤ 640 - p.size ∧ 0 ≤ p.y ∧ p.y ≤ 480 - p.size

instance (p : Player) : Decidable (inArena p) := by
  unfold inArena
  infer_instance

/-- Viewport record of main.go (lines 47-50); presentation state carried
in the Game struct and untouched by Reset. -/
structure Viewport where
  x16 : ℤ
  y16 : ℤ
deriving DecidableEq

/-- Game record, mirroring struct Game of main.go (lines 96-122).  Key
codes are abstracted as natural numbers. -/
structure Game where
  keys : List ℕ
  viewport : Viewport
  player : Option Player
  bullets : List Bullet
  enemies : List Enemy
  enemyBullets : List EnemyBullet
  spawnCounter : ℤ
  spawnInterval : ℤ
  elapsedFrames : ℕ
  gameState : String
  score : ℤ
  deathScore : ℤ
  username : String
  usernameInput : String
  lastGameState : String
  dropdownOpen : Bool
  selectedScreen : ℤ
  customWidth : ℤ
  customHeight : ℤ
  customInput : Bool
  customInputStr : String

/-- Method Game.Reset of main.go (lines 942-952): recreate the player at
the arena center, clear the three entity lists, and reset the spawn
counter, spawn interval, elapsed-frame counter and score. -/
def Game.Reset (g : Game) : Game :=
  { g with
    player := some (NewPlayer (640 / 2) (480 / 2))
    bullets := []
    enemies := []
    enemyBullets := []
    spawnCounter := 0
    spawnInterval := 90
    elapsedFrames := 0
    score := 0 }

/-- Game.Reset lifted to the pair of the Game value and the global score
table: the method reads and writes only fields of g, so the global table
is carried through unchanged. -/
def resetWorld (w : Game × (String → ℤ)) : Game × (String → ℤ) :=
  (w.1.Reset, w.2)

end TwoDGo

namespace TwoDGo

/-- Closed form for the difficulty ramp: after n ticks the elapsed counter
is n and the interval is the starting 90 lowered by 5 for each full 120
ticks, floored at 10. -/
lemma rampState_closed (n : ℕ) :
    rampState n = (n, max (90 - 5 * ((n / 120 : ℕ) : ℤ)) 10) := by
  induction n with
  | zero =>
    simp [rampState]
  | succ n ih =>
    rw [rampState, Function.iterate_succ_apply', ← rampState, ih]
    unfold rampStep
    have hdiv := Nat.succ_div 120 n
    by_cases h : (n + 1) % 120 = 0
    · have h120 : 120 ∣ n + 1 := by omega
      have hq : (n + 1) / 120 = n / 120 + 1 := by omega
      simp only [h, true_and, hq]
      split_ifs <;> simp_all <;> omega
    · have hq : (n + 1) / 120 = n / 120 := by omega
      simp only [h, false_and, if_false, hq]

/-- Single death-event bookkeeping never lowers any stored score. -/
lemma saveHighScoreOnDeath_mono (ev : String × ℤ) (t : String → ℤ) (v : String) :
    t v ≤ (saveHighScoreOnDeath ev.1 ev.2 t).1 v := by
  unfold saveHighScoreOnDeath
  split_ifs with h
  · dsimp only
    rw [Function.update_apply]
    split_ifs with hv
    · subst hv
      exact le_of_lt h.2
    · exact le_refl _
  · exact le_refl _

/-- Two-sided clamp used for each coordinate in the movement block: the
result of first raising to 0 and then lowering to M lies in the closed
interval from 0 to M. -/
lemma clamp_bounds (x M : ℚ) (hM : 0 ≤ M) :
    0 ≤ (if (if x < 0 then (0 : ℚ) else x) > M then M else (if x < 0 then (0 : ℚ) else x))
    ∧ (if (if x < 0 then (0 : ℚ) else x) > M then M else (if x < 0 then (0 : ℚ) else x)) ≤ M := by
  split_ifs <;> constructor <;> linarith

/-- Counting dead marks distributes over cons. -/
lemma countDead_cons (e : Enemy) (es : List Enemy) :
    countDead (e :: es) = (if e.dead then 1 else 0) + countDead es := by
  simp only [countDead, List.filter_cons]
  split_ifs <;> simp [Nat.add_comm]

/-- The marking scan preserves the length of the enemy list. -/
lemma markFirstHit_length (b : Bullet) (es : List Enemy) :
    (markFirstHit b es).1.length = es.length := by
  induction es with
  | nil => rfl
  | cons e es ih =>
    unfold markFirstHit
    split_ifs with h
    · simp
    · simp [ih]

/-- A scan that reports no hit leaves the enemy list unchanged. -/
lemma markFirstHit_of_no_hit (b : Bullet) (es : List Enemy)
    (h : (markFirstHit b es).2 = false) : (markFirstHit b es).1 = es := by
  induction es with
  | nil => rfl
  | cons e es ih =>
    unfold markFirstHit at h ⊢
    by_cases hl : liveHit b e = true
    · rw [if_pos hl] at h
      simp at h
    · rw [if_neg hl] at h ⊢
      have h2 : (markFirstHit b es).2 = false := h
      simp [ih h2]

/-- A scan that reports a hit marks exactly one additional enemy dead. -/
lemma markFirstHit_countDead (b : Bullet) (es : List Enemy)
    (h : (markFirstHit b es).2 = true) :
    countDead (markFirstHit b es).1 = countDead es + 1 := by
  induction es with
  | nil => simp [markFirstHit] at h
  | cons e es ih =>
    unfold markFirstHit at h ⊢
    split_ifs at h ⊢ with hl
    · have hd : e.dead = false := by
        simp only [liveHit, Bool.and_eq_true, Bool.not_eq_true'] at hl
        exact hl.1
      dsimp only
      rw [countDead_cons, countDead_cons, hd]
      simp
      omega
    · have h2 : (markFirstHit b es).2 = true := h
      dsimp only
      rw [countDead_cons, countDead_cons, ih h2]
      omega

/-- The scan marks dead precisely the first enemy that is alive and
overlaps the bullet, leaving everything else untouched. -/
lemma markFirstHit_split (b : Bullet) (es1 : List Enemy) (e : Enemy) (es2 : List Enemy)
    (hpre : ∀ e1 ∈ es1, liveHit b e1 = false) (he : liveHit b e = true) :
    markFirstHit b (es1 ++ e :: es2) = (es1 ++ { e with dead := true } :: es2, true) := by
  induction es1 with
  | nil =>
    simp only [List.nil_append]
    unfold markFirstHit
    rw [if_pos he]
  | cons e1 es1 ih =>
    have h1 : liveHit b e1 = false := hpre e1 (by simp)
    have hrest := ih (fun x hx => hpre x (by simp [hx]))
    simp only [List.cons_append]
    unfold markFirstHit
    rw [if_neg (by simp [h1]), hrest]

/-- If no enemy in the list is both alive and overlapping, the scan
reports no hit and changes nothing. -/
lemma markFirstHit_none (b : Bullet) (es : List Enemy)
    (h : ∀ e1 ∈ es, liveHit b e1 = false) : markFirstHit b es = (es, false) := by
  induction es with
  | nil => rfl
  | cons e es ih =>
    unfold markFirstHit
    rw [if_neg (by simp [h e (by simp)]), ih (fun x hx => h x (by simp [hx]))]

/-- Any list containing a live overlapping enemy splits at the first such
enemy, with no live overlap before it. -/
lemma exists_first_liveHit (b : Bullet) (es : List Enemy)
    (h : es.any (fun e => liveHit b e) = true) :
    ∃ es1 e es2, es = es1 ++ e :: es2 ∧ liveHit b e = true
      ∧ ∀ e1 ∈ es1, liveHit b e1 = false := by
  induction es with
  | nil => simp at h
  | cons e es ih =>
    cases hf : liveHit b e with
    | true => exact ⟨[], e, es, rfl, hf, by simp⟩
    | false =>
      have h2 : es.any (fun x => liveHit b x) = true := by
        simpa [hf] using h
      obtain ⟨es1, x, es2, heq, hx, hpre⟩ := ih h2
      refine ⟨e :: es1, x, es2, by rw [heq, List.cons_append], hx, ?_⟩
      intro e1 he1
      rcases List.mem_cons.mp he1 with rfl | he1
      · exact hf
      · exact hpre e1 he1

/-- Accounting of the full collision pass: the score grows by exactly the
number of enemies newly marked dead, and exactly that many bullets are
consumed. -/
lemma bulletEnemyPass_accounting (bs : List Bullet) :
    ∀ (es : List Enemy) (sc : ℤ),
      (bulletEnemyPass bs es sc).2.2
        = sc + ((countDead (bulletEnemyPass bs es sc).2.1 : ℤ) - (countDead es : ℤ))
      ∧ ((bulletEnemyPass bs es sc).1.length : ℤ)
        = (bs.length : ℤ)
            - ((countDead (bulletEnemyPass bs es sc).2.1 : ℤ) - (countDead es : ℤ)) := by
  induction bs with
  | nil =>
    intro es sc
    simp [bulletEnemyPass]
  | cons b bs ih =>
    intro es sc
    unfold bulletEnemyPass
    cases hm : (markFirstHit b es).2 with
    | true =>
      rw [if_pos rfl]
      obtain ⟨ih1, ih2⟩ := ih (markFirstHit b es).1 (sc + 1)
      have hcd := markFirstHit_countDead b es hm
      refine ⟨?_, ?_⟩
      · rw [ih1, hcd]
        push_cast
        ring
      · rw [ih2, hcd]
        push_cast [List.length_cons]
        ring
    | false =>
      rw [if_neg (by simp)]
      obtain ⟨ih1, ih2⟩ := ih (markFirstHit b es).1 sc
      rw [markFirstHit_of_no_hit b es hm] at ih1 ih2
      constructor
      · dsimp only
        rw [markFirstHit_of_no_hit b es hm]
        exact ih1
      · dsimp only [List.length_cons]
        rw [markFirstHit_of_no_hit b es hm]
        push_cast [List.length_cons] at ih2 ⊢
        omega

/-- C6: rectsOverlap returns true iff the four strict inequalities hold,
edge-touching boxes do not overlap (two size-32 boxes coincide: overlap;
moved apart by exactly 32 on one axis: no overlap), and the predicate is
symmetric in its two boxes. -/
theorem rectsOverlap_characterization_and_symm :
    (∀ x1 y1 s1 x2 y2 s2 : ℚ,
        rectsOverlap x1 y1 s1 x2 y2 s2 = true ↔
          (x1 < x2 + s2 ∧ x2 < x1 + s1 ∧ y1 < y2 + s2 ∧ y2 < y1 + s1))
    ∧ rectsOverlap 0 0 32 0 0 32 = true
    ∧ rectsOverlap 0 0 32 32 0 32 = false
    ∧ (∀ x1 y1 s1 x2 y2 s2 : ℚ,
        rectsOverlap x1 y1 s1 x2 y2 s2 = rectsOverlap x2 y2 s2 x1 y1 s1) := by
  refine ⟨?_, by norm_num [rectsOverlap], by norm_num [rectsOverlap], ?_⟩
  · intro x1 y1 s1 x2 y2 s2
    simp [rectsOverlap, and_assoc]
  · intro x1 y1 s1 x2 y2 s2
    simp only [rectsOverlap, Bool.and_assoc]
    rw [Bool.eq_iff_iff]
    simp only [Bool.and_eq_true, decide_eq_true_eq]
    tauto

/-- C8: loadScores is total (never a fatal error); a missing file and a
malformed file both leave the table empty, and a present well-formed file
populates the table with exactly its contents. -/
theorem loadScores_total_empty_on_failure :
    loadScores none = { highScores := fun _ => 0 }
    ∧ loadScores (some none) = { highScores := fun _ => 0 }
    ∧ ∀ d, loadScores (some (some d)) = d := by
  exact ⟨rfl, rfl, fun d => rfl⟩

/-- C10: Game.Reset recreates the player at the arena center, empties the
three entity lists, zeroes the spawn counter, elapsed-frame counter and
score, sets the spawn interval to 90, and leaves every other field of the
Game value, as well as the global score table, unchanged. -/
theorem reset_frame_effect :
    ∀ g : Game,
      g.Reset.player = some { x := 320, y := 240, size := 32 }
      ∧ g.Reset.bullets = []
      ∧ g.Reset.enemies = []
      ∧ g.Reset.enemyBullets = []
      ∧ g.Reset.spawnCounter = 0
      ∧ g.Reset.spawnInterval = 90
      ∧ g.Reset.elapsedFrames = 0
      ∧ g.Reset.score = 0
      ∧ g.Reset.keys = g.keys
      ∧ g.Reset.viewport = g.viewport
      ∧ g.Reset.gameState = g.gameState
      ∧ g.Reset.deathScore = g.deathScore
      ∧ g.Reset.username = g.username
      ∧ g.Reset.usernameInput = g.usernameInput
      ∧ g.Reset.lastGameState = g.lastGameState
      ∧ g.Reset.dropdownOpen = g.dropdownOpen
      ∧ g.Reset.selectedScreen = g.selectedScreen
      ∧ g.Reset.customWidth = g.customWidth
      ∧ g.Reset.customHeight = g.customHeight
      ∧ g.Reset.customInput = g.customInput
      ∧ g.Reset.customInputStr = g.customInputStr
      ∧ ∀ hs : String → ℤ, (resetWorld (g, hs)).2 = hs := by
  intro g
  refine ⟨?_, rfl, rfl, rfl, rfl, rfl, rfl, rfl, rfl, rfl, rfl, rfl, rfl,
    rfl, rfl, rfl, rfl, rfl, rfl, rfl, rfl, fun hs => rfl⟩
  show some (NewPlayer (640 / 2) (480 / 2)) = _
  norm_num [NewPlayer]

/-- C3: on a death event with a non-empty username, the stored score for
that username becomes the maximum of the old stored value and the session
score, the entry is overwritten with saveScores invoked exactly when the
session score strictly exceeds the old value, and across any sequence of
death events no stored score ever decreases. -/
theorem highScore_update_max_monotone :
    (∀ (u : String) (sc : ℤ) (hs : String → ℤ), u ≠ "" →
        (saveHighScoreOnDeath u sc hs).1 u = max (hs u) sc
        ∧ ((saveHighScoreOnDeath u sc hs).2 = true ↔ hs u < sc)
        ∧ ∀ v, hs v ≤ (saveHighScoreOnDeath u sc hs).1 v)
    ∧ ∀ (hs : String → ℤ) (events : List (String × ℤ)) (v : String),
        hs v ≤ applyDeaths hs events v := by
  constructor
  · intro u sc hs hu
    by_cases h : hs u < sc
    · unfold saveHighScoreOnDeath
      rw [if_pos ⟨hu, h⟩]
      refine ⟨?_, by simp [h], ?_⟩
      · dsimp only
        rw [Function.update_apply, if_pos rfl]
        exact (max_eq_right h.le).symm
      · intro v
        dsimp only
        rw [Function.update_apply]
        split_ifs with hv
        · subst hv
          exact h.le
        · exact le_refl _
    · unfold saveHighScoreOnDeath
      rw [if_neg (by tauto)]
      exact ⟨(max_eq_left (not_lt.mp h)).symm, by simp [h], fun v => le_refl _⟩
  · intro hs events
    induction events generalizing hs with
    | nil =>
      intro v
      exact le_refl _
    | cons ev evs ih =>
      intro v
      calc hs v ≤ (saveHighScoreOnDeath ev.1 ev.2 hs).1 v :=
            saveHighScoreOnDeath_mono ev hs v
        _ ≤ applyDeaths (saveHighScoreOnDeath ev.1 ev.2 hs).1 evs v := ih _ v
        _ = applyDeaths hs (ev :: evs) v := rfl

/-- Witness for C3 at the scenario of the spec: stored score 30 for Ann,
death with session score 50 updates the entry to 50 and invokes the save,
and a later death with score 20 leaves the entry at 50. -/
theorem highScore_update_witness :
    (saveHighScoreOnDeath "Ann" 50 (Function.update (fun _ => 0) "Ann" (30 : ℤ))).1 "Ann" = 50
    ∧ ((saveHighScoreOnDeath "Ann" 50 (Function.update (fun _ => 0) "Ann" (30 : ℤ))).2 = true)
    ∧ (saveHighScoreOnDeath "Ann" 20 (Function.update (fun _ => 0) "Ann" (50 : ℤ))).1 "Ann" = 50 := by
  have h1 := (highScore_update_max_monotone.1 "Ann" 50
    (Function.update (fun _ => 0) "Ann" (30 : ℤ)) (by simp)).1
  have h2 := (highScore_update_max_monotone.1 "Ann" 50
    (Function.update (fun _ => 0) "Ann" (30 : ℤ)) (by simp)).2.1
  have h3 := (highScore_update_max_monotone.1 "Ann" 20
    (Function.update (fun _ => 0) "Ann" (50 : ℤ)) (by simp)).1
  simp [Function.update_apply] at h1 h2 h3
  exact ⟨h1, h2, h3⟩

/-- C4: starting from the reset state (interval 90, counter 0), the spawn
interval drops by exactly 5 on each tick whose elapsed counter is a
positive multiple of 120 while the interval is above 10, is unchanged on
every other tick, is monotonically non-increasing, never falls below 10,
and equals 80 after 240 ticks. -/
theorem spawnInterval_ramp :
    (∀ n : ℕ, (n + 1) % 120 = 0 → (rampState n).2 > 10 →
        (rampState (n + 1)).2 = (rampState n).2 - 5)
    ∧ (∀ n : ℕ, ¬((n + 1) % 120 = 0 ∧ (rampState n).2 > 10) →
        (rampState (n + 1)).2 = (rampState n).2)
    ∧ (∀ n : ℕ, (rampState (n + 1)).2 ≤ (rampState n).2)
    ∧ (∀ n : ℕ, 10 ≤ (rampState n).2)
    ∧ (rampState 240).2 = 80 := by
  have key : ∀ n : ℕ, (rampState n).2 = max (90 - 5 * ((n / 120 : ℕ) : ℤ)) 10 := by
    intro n
    rw [rampState_closed]
  refine ⟨?_, ?_, ?_, ?_, ?_⟩
  · intro n h1 h2
    rw [key] at h2 ⊢
    rw [key]
    omega
  · intro n h
    rw [key, key]
    rw [key] at h
    omega
  · intro n
    rw [key, key]
    omega
  · intro n
    rw [key]
    omega
  · rw [key]
    norm_num

/-- Witness for C4: on tick 120 (a positive multiple of 120, interval
still 90 beforehand) the interval drops from 90 to 85, and on tick 1 it
is unchanged at 90. -/
theorem spawnInterval_ramp_witness :
    (rampState 120).2 = (rampState 119).2 - 5
    ∧ (rampState 119).2 = 90
    ∧ (rampState 1).2 = (rampState 0).2 := by
  have h119 : (rampState 119).2 = 90 := by
    rw [rampState_closed]
    norm_num
  refine ⟨?_, h119, ?_⟩
  · exact spawnInterval_ramp.1 119 (by norm_num) (by rw [h119]; norm_num)
  · exact spawnInterval_ramp.2.1 0 (by intro h; omega)

/-- C7: after the movement-and-clamp phase of a playing tick the player
hitbox lies fully inside the 640 by 480 arena, for every combination of
held keys; in particular the bound is an invariant of every tick. -/
theorem player_clamped_in_arena (k : HeldKeys) (p : Player) (hsize : p.size = 32) :
    inArena (movePlayerClamp k p) ∧ (inArena p → inArena (movePlayerClamp k p)) := by
  have main : inArena (movePlayerClamp k p) := by
    obtain ⟨x, y, s⟩ := p
    have hs : s = 32 := hsize
    subst hs
    simp only [movePlayerClamp, inArena]
    exact ⟨(clamp_bounds _ _ (by norm_num)).1, (clamp_bounds _ _ (by norm_num)).2,
      (clamp_bounds _ _ (by norm_num)).1, (clamp_bounds _ _ (by norm_num)).2⟩
  exact ⟨main, fun _ => main⟩

/-- Witness for C7 at a concrete state: no keys held, player at
(100, 100) with size 32 stays in the arena. -/
theorem player_clamped_in_arena_witness :
    inArena (movePlayerClamp
      { w := false, s := false, a := false, d := false,
        up := false, down := false, left := false, right := false }
      { x := 100, y := 100, size := 32 }) := by
  exact (player_clamped_in_arena _ _ rfl).2 (by norm_num [inArena])

/-- C1 (code bug): the bullet the code actually spawns from the reset
player position has SpeedY +8, so its y grows each tick, the top-edge
removal test b.Y + b.Size > 0 always keeps it, and it is never removed;
in particular it is still in the list after the 35 ticks at which the
claim, via ceil((py + size) / v), says it must already be gone. -/
theorem player_bullet_never_removed :
    (∀ n : ℕ, moveBullets^[n] [spawnBullet (NewPlayer 320 240)]
        = [{ x := 333, y := 272 + 8 * (n : ℚ), speedY := 8, size := 6 }])
    ∧ ⌈((272 : ℚ) + 6) / 8⌉ = 35
    ∧ (moveBullets^[35] [spawnBullet (NewPlayer 320 240)]).length = 1 := by
  have base : spawnBullet (NewPlayer 320 240)
      = { x := 333, y := 272, speedY := 8, size := 6 } := by
    simp only [spawnBullet, NewPlayer, Bullet.mk.injEq]
    norm_num
  have main : ∀ n : ℕ, moveBullets^[n] [spawnBullet (NewPlayer 320 240)]
      = [{ x := 333, y := 272 + 8 * (n : ℚ), speedY := 8, size := 6 }] := by
    intro n
    induction n with
    | zero =>
      simp only [Function.iterate_zero, id_eq, base, List.cons.injEq,
        Bullet.mk.injEq, and_true, true_and]
      norm_num
    | succ n ih =>
      rw [Function.iterate_succ_apply', ih]
      have hn : (0 : ℚ) ≤ (n : ℚ) := Nat.cast_nonneg n
      simp only [moveBullets, List.filterMap_cons, List.filterMap_nil]
      rw [if_pos (by linarith)]
      simp only [List.cons.injEq, Bullet.mk.injEq, and_true, true_and]
      push_cast
      ring
  refine ⟨main, ?_, by rw [main 35]; rfl⟩
  rw [show ((272 : ℚ) + 6) / 8 = 139 / 4 by norm_num, Int.ceil_eq_iff]
  norm_num

/-- C2 (code bug): the shooting branch appends exactly one bullet on a
fresh press and none otherwise, with x at the player horizontal center
minus half the bullet size; but its y is the player bottom edge
(player.Y + Size, here 240 + 32 = 272, not the top edge 240) and its
SpeedY is +8, which in screen coordinates moves toward increasing y
(downward), not upward. -/
theorem shoot_spawns_bottom_edge_downward :
    (∀ (p : Player) (bs : List Bullet),
        shoot true (some p) bs
          = bs ++ [{ x := p.x + p.size / 2 - 3, y := p.y + p.size, speedY := 8, size := 6 }])
    ∧ (∀ (op : Option Player) (bs : List Bullet), shoot false op bs = bs)
    ∧ shoot true (some (NewPlayer 320 240)) []
        = [{ x := 333, y := 272, speedY := 8, size := 6 }]
    ∧ (NewPlayer 320 240).y + (NewPlayer 320 240).size = 272
    ∧ (272 : ℚ) = 240 + 32
    ∧ (0 : ℚ) < 8 := by
  refine ⟨fun p bs => rfl, fun op bs => by cases op <;> rfl, ?_, ?_, by norm_num, by norm_num⟩
  · show [] ++ [spawnBullet (NewPlayer 320 240)] = _
    simp only [List.nil_append, spawnBullet, NewPlayer, List.cons.injEq, Bullet.mk.injEq]
    norm_num
  · show (240 : ℚ) + 32 = 272
    norm_num

/-- C5: in the bullet-vs-enemy pass, a bullet marks dead exactly the
first not-yet-dead overlapping enemy and is consumed (already-dead
enemies are ineligible, so later bullets cannot hit them again); a bullet
with no live overlap changes nothing and survives; over the whole pass
the score grows by exactly the number of enemies newly marked dead,
which equals the number of bullets consumed; after the pass no
dead-marked enemy remains; and a single bullet overlapping exactly one
live enemy yields score + 1, consumes that bullet, and removes exactly
one live enemy. -/
theorem bullet_enemy_collision :
    (∀ (b : Bullet) (es1 : List Enemy) (e : Enemy) (es2 : List Enemy),
        (∀ e1 ∈ es1, liveHit b e1 = false) → liveHit b e = true →
        markFirstHit b (es1 ++ e :: es2)
          = (es1 ++ ({ e with dead := true } : Enemy) :: es2, true))
    ∧ (∀ (b : Bullet) (es : List Enemy),
        (∀ e1 ∈ es, liveHit b e1 = false) → markFirstHit b es = (es, false))
    ∧ (∀ (bs : List Bullet) (es : List Enemy) (sc : ℤ),
        (bulletEnemyPass bs es sc).2.2
          = sc + ((countDead (bulletEnemyPass bs es sc).2.1 : ℤ) - (countDead es : ℤ))
        ∧ ((bulletEnemyPass bs es sc).1.length : ℤ)
          = (bs.length : ℤ)
              - ((countDead (bulletEnemyPass bs es sc).2.1 : ℤ) - (countDead es : ℤ)))
    ∧ (∀ (bs : List Bullet) (es : List Enemy) (sc : ℤ),
        ∀ e1 ∈ removeDead (bulletEnemyPass bs es sc).2.1, e1.dead = false)
    ∧ (∀ (b : Bullet) (es : List Enemy) (sc : ℤ),
        es.countP (fun e => liveHit b e) = 1 →
        (bulletEnemyPass [b] es sc).2.2 = sc + 1
        ∧ (bulletEnemyPass [b] es sc).1 = []
        ∧ (removeDead (bulletEnemyPass [b] es sc).2.1).length + 1
            = (removeDead es).length) := by
  refine ⟨markFirstHit_split, markFirstHit_none, fun bs es sc =>
    bulletEnemyPass_accounting bs es sc, ?_, ?_⟩
  · intro bs es sc e1 h1
    have := List.mem_filter.mp h1
    simpa using this.2
  · intro b es sc h1
    have hpos : 0 < es.countP (fun e => liveHit b e) := by
      rw [h1]
      norm_num
    obtain ⟨x, hx, hpx⟩ := List.countP_pos_iff.mp hpos
    have hany : es.any (fun e => liveHit b e) = true :=
      List.any_eq_true.mpr ⟨x, hx, hpx⟩
    obtain ⟨es1, e, es2, rfl, he, hpre⟩ := exists_first_liveHit b es hany
    have hm := markFirstHit_split b es1 e es2 hpre he
    have hpass : bulletEnemyPass [b] (es1 ++ e :: es2) sc
        = ([], es1 ++ ({ e with dead := true } : Enemy) :: es2, sc + 1) := by
      unfold bulletEnemyPass
      rw [hm]
      simp [bulletEnemyPass]
    have hlive : e.dead = false := by
      simp only [liveHit, Bool.and_eq_true, Bool.not_eq_true'] at he
      exact he.1
    refine ⟨by rw [hpass], by rw [hpass], ?_⟩
    rw [hpass]
    simp only [removeDead, List.filter_append, List.filter_cons]
    simp [hlive]
    omega

/-- Witness for C5 on concrete data: a 6-pixel bullet at the origin, one
already-dead enemy (ineligible) and one live overlapping enemy at the
origin; the pass marks the live one, scores one point, consumes the
bullet, and the live-enemy count drops by one. -/
theorem bullet_enemy_collision_witness :
    markFirstHit ({ x := 0, y := 0, speedY := 8, size := 6 } : Bullet)
        [({ x := 0, y := 0, size := 32, speedY := -2, cooldown := 30, dead := false } : Enemy)]
      = ([({ x := 0, y := 0, size := 32, speedY := -2, cooldown := 30, dead := true } : Enemy)], true)
    ∧ markFirstHit ({ x := 0, y := 0, speedY := 8, size := 6 } : Bullet)
        [({ x := 0, y := 0, size := 32, speedY := -2, cooldown := 30, dead := true } : Enemy)]
      = ([({ x := 0, y := 0, size := 32, speedY := -2, cooldown := 30, dead := true } : Enemy)], false)
    ∧ (bulletEnemyPass [({ x := 0, y := 0, speedY := 8, size := 6 } : Bullet)]
        [({ x := 0, y := 0, size := 32, speedY := -2, cooldown := 30, dead := true } : Enemy),
         ({ x := 0, y := 0, size := 32, speedY := -2, cooldown := 30, dead := false } : Enemy)] 0).2.2
      = 0 + 1
    ∧ (bulletEnemyPass [({ x := 0, y := 0, speedY := 8, size := 6 } : Bullet)]
        [({ x := 0, y := 0, size := 32, speedY := -2, cooldown := 30, dead := true } : Enemy),
         ({ x := 0, y := 0, size := 32, speedY := -2, cooldown := 30, dead := false } : Enemy)] 0).1
      = []
    ∧ (removeDead (bulletEnemyPass [({ x := 0, y := 0, speedY := 8, size := 6 } : Bullet)]
        [({ x := 0, y := 0, size := 32, speedY := -2, cooldown := 30, dead := true } : Enemy),
         ({ x := 0, y := 0, size := 32, speedY := -2, cooldown := 30, dead := false } : Enemy)] 0).2.1).length + 1
      = (removeDead
        [({ x := 0, y := 0, size := 32, speedY := -2, cooldown := 30, dead := true } : Enemy),
         ({ x := 0, y := 0, size := 32, speedY := -2, cooldown := 30, dead := false } : Enemy)]).length := by
  have hlive : liveHit ({ x := 0, y := 0, speedY := 8, size := 6 } : Bullet)
      ({ x := 0, y := 0, size := 32, speedY := -2, cooldown := 30, dead := false } : Enemy)
      = true := by
    norm_num [liveHit, rectsOverlap]
  have hdead : liveHit ({ x := 0, y := 0, speedY := 8, size := 6 } : Bullet)
      ({ x := 0, y := 0, size := 32, speedY := -2, cooldown := 30, dead := true } : Enemy)
      = false := by
    norm_num [liveHit]
  have h1 := bullet_enemy_collision.1
    ({ x := 0, y := 0, speedY := 8, size := 6 } : Bullet) []
    ({ x := 0, y := 0, size := 32, speedY := -2, cooldown := 30, dead := false } : Enemy) []
    (by simp) hlive
  have h2 := bullet_enemy_collision.2.1
    ({ x := 0, y := 0, speedY := 8, size := 6 } : Bullet)
    [({ x := 0, y := 0, size := 32, speedY := -2, cooldown := 30, dead := true } : Enemy)]
    (by simpa using hdead)
  have h5 := bullet_enemy_collision.2.2.2.2
    ({ x := 0, y := 0, speedY := 8, size := 6 } : Bullet)
    [({ x := 0, y := 0, size := 32, speedY := -2, cooldown := 30, dead := true } : Enemy),
     ({ x := 0, y := 0, size := 32, speedY := -2, cooldown := 30, dead := false } : Enemy)] 0
    (by simp [List.countP_cons, hdead, hlive])
  exact ⟨by simpa using h1, h2, h5.1, h5.2.1, h5.2.2⟩

/-- C9: for an enemy whose decremented cooldown is at or below zero on a
playing tick (and which did not despawn), the fire step is guarded: when
the squared center distance is zero no bullet is fired and no division is
performed; when it is positive, and the square-root routine returns the
exact positive root there, exactly one bullet is emitted whose velocity
is the unit vector from enemy center to player center scaled by the
fixed speed 5 (its components are dx and dy divided by the root times 5,
its squared norm is 25, and it is parallel to (dx, dy)), and the
cooldown resets to 60 + r, which lies in the range 60 to 119 for any
random draw r below 60. -/
theorem enemy_fire_guard (sq : ℚ → ℚ) (p : Player) (e : Enemy) (r : ℕ)
    (hAlive : ¬((enemyMoved e).y + (enemyMoved e).size < 0))
    (hCd : (enemyTicked e).cooldown ≤ 0) :
    (aimDist p (enemyTicked e) = 0 →
        updateEnemy sq (some p) r e = some (enemyTicked e, none))
    ∧ (0 < aimDist p (enemyTicked e) →
        sq (aimDist p (enemyTicked e)) * sq (aimDist p (enemyTicked e))
            = aimDist p (enemyTicked e) →
        0 < sq (aimDist p (enemyTicked e)) →
        ∃ eb : EnemyBullet,
          updateEnemy sq (some p) r e
              = some ({ enemyTicked e with cooldown := 60 + (r : ℤ) }, some eb)
          ∧ eb.speedX = aimDX p (enemyTicked e) / sq (aimDist p (enemyTicked e)) * 5
          ∧ eb.speedY = aimDY p (enemyTicked e) / sq (aimDist p (enemyTicked e)) * 5
          ∧ eb.speedX * eb.speedX + eb.speedY * eb.speedY = 25
          ∧ eb.speedX * aimDY p (enemyTicked e) = eb.speedY * aimDX p (enemyTicked e)
          ∧ (r < 60 → 60 ≤ 60 + (r : ℤ) ∧ 60 + (r : ℤ) ≤ 119)) := by
  constructor
  · intro hd
    unfold updateEnemy
    rw [if_neg hAlive]
    dsimp only
    rw [if_pos hCd, if_neg (by rw [hd]; norm_num)]
  · intro hd hs h5
    refine ⟨{ x := (enemyTicked e).x + (enemyTicked e).size / 2 - 3,
              y := (enemyTicked e).y + (enemyTicked e).size / 2 - 3,
              speedX := aimDX p (enemyTicked e) / sq (aimDist p (enemyTicked e)) * 5,
              speedY := aimDY p (enemyTicked e) / sq (aimDist p (enemyTicked e)) * 5,
              size := 6 }, ?_, rfl, rfl, ?_, ?_, ?_⟩
    · unfold updateEnemy
      rw [if_neg hAlive]
      dsimp only
      rw [if_pos hCd, if_pos hd]
    · have hL : sq (aimDist p (enemyTicked e)) ≠ 0 := ne_of_gt h5
      have hs2 : sq (aimDist p (enemyTicked e)) * sq (aimDist p (enemyTicked e))
          = aimDX p (enemyTicked e) * aimDX p (enemyTicked e)
            + aimDY p (enemyTicked e) * aimDY p (enemyTicked e) := hs
      field_simp
      linear_combination (-25 : ℚ) * hs2
    · ring
    · intro hr
      constructor
      · omega
      · have : (r : ℤ) ≤ 59 := by exact_mod_cast Nat.le_of_lt_succ hr
        omega

/-- Witness for C9: enemy center at the origin (cooldown reaching 0),
player center at (3, 4), squared distance 25, square root 5, random
draw 0: exactly one bullet with velocity (3, 4) of squared norm 25 is
fired and the cooldown resets to 60. -/
theorem enemy_fire_guard_witness :
    ∃ eb : EnemyBullet, ∃ e2 : Enemy,
      updateEnemy (fun _ => 5) (some ({ x := -13, y := -12, size := 32 } : Player)) 0
          ({ x := -16, y := -16, size := 32, speedY := 0, cooldown := 1, dead := false } : Enemy)
        = some (e2, some eb)
      ∧ e2.cooldown = 60
      ∧ eb.speedX = 3
      ∧ eb.speedY = 4
      ∧ eb.speedX * eb.speedX + eb.speedY * eb.speedY = 25 := by
  have h := (enemy_fire_guard (fun _ => 5)
      ({ x := -13, y := -12, size := 32 } : Player)
      ({ x := -16, y := -16, size := 32, speedY := 0, cooldown := 1, dead := false } : Enemy) 0
      (by norm_num [enemyMoved])
      (by norm_num [enemyTicked, enemyMoved])).2
      (by norm_num [aimDist, aimDX, aimDY, enemyTicked, enemyMoved])
      (by norm_num [aimDist, aimDX, aimDY, enemyTicked, enemyMoved])
      (by norm_num)
  obtain ⟨eb, heq, hsx, hsy, h25, hpar, hcool⟩ := h
  refine ⟨eb, _, heq, by norm_num [enemyTicked, enemyMoved], ?_, ?_, h25⟩
  · rw [hsx]
    norm_num [aimDist, aimDX, aimDY, enemyTicked, enemyMoved]
  · rw [hsy]
    norm_num [aimDist, aimDX, aimDY, enemyTicked, enemyMoved]

end TwoDGo
